import Mathlib

/-!
Verification of the primitive-validator core of the assert-json library
(`src/validators/mod.rs`).  The crate-root items it uses (`Value`, `Error`,
`Validator`, `get_value_type_id`) are not part of the excerpt and are
modelled from the specification; the validators themselves are translated
directly from the source.
-/

namespace AssertJson

/-- Modelled from the spec: a JSON number as stored inside the external
Value model.  Integers are exact; floating-point payloads are represented
by their bit pattern, with structural equality as the spec prescribes
("Equality is structural"). -/
inductive JNum where
  | int (i : Int)
  | float (bits : Nat)
  deriving DecidableEq, Repr

/-- Modelled from the spec: the external Value model, "a tagged union with
variants Null | Bool | Number | String | Array(seq&lt;Value&gt;) |
Object(map&lt;String,Value&gt;)", with deep structural equality
(order-sensitive for arrays, key-based for objects is represented here by
an association list in insertion order). -/
inductive Value where
  | null
  | bool (b : Bool)
  | number (n : JNum)
  | str (s : String)
  | array (xs : List Value)
  | object (fields : List (String × Value))
  deriving Repr

/-- Structural equality on `Value`, mirroring the Value model's `==`. -/
def Value.beq : Value → Value → Bool
  | .null, .null => true
  | .bool b₁, .bool b₂ => b₁ == b₂
  | .number n₁, .number n₂ => n₁ == n₂
  | .str s₁, .str s₂ => s₁ == s₂
  | .array xs, .array ys => beqList xs ys
  | .object fs, .object gs => beqFields fs gs
  | _, _ => false
where
  beqList : List Value → List Value → Bool
    | [], [] => true
    | x :: xs, y :: ys => Value.beq x y && beqList xs ys
    | _, _ => false
  beqFields : List (String × Value) → List (String × Value) → Bool
    | [], [] => true
    | (k₁, v₁) :: fs, (k₂, v₂) :: gs => k₁ == k₂ && Value.beq v₁ v₂ && beqFields fs gs
    | _, _ => false

/-- Modelled from the spec: the `TypeId` discriminant, "one discriminant
per Value variant".  The spec leaves a possible finer grain for numbers
unspecified and treats the discriminant as an opaque equality-comparable
value; we use one discriminant per variant. -/
inductive TypeId where
  | nullId
  | boolId
  | numberId
  | stringId
  | arrayId
  | objectId
  deriving DecidableEq, Repr

/-- Modelled from the spec: `get_value_type_id`, the total companion
function returning the discriminant of a Value's variant. -/
def get_value_type_id : Value → TypeId
  | .null => .nullId
  | .bool _ => .boolId
  | .number _ => .numberId
  | .str _ => .stringId
  | .array _ => .arrayId
  | .object _ => .objectId

/-- Modelled from the spec: the error model `Error<'a>` with exactly two
kinds.  `InvalidType` carries the inspected value and the *expected* type
id; `InvalidValue` carries the inspected value and a human-readable
rendering of what was expected.  The Rust borrow `&'a Value` is embedded
as the value itself. -/
inductive Error where
  | InvalidType (actual : Value) (expected : TypeId)
  | InvalidValue (actual : Value) (expectedDebug : String)
  deriving Repr

/-- Embedding of the Rust trait bound `T: Into<Value> + Clone + Debug`:
the capabilities `eq` requires of its generic parameter.  `Clone` is the
identity in a pure embedding. -/
structure IntoValueDebug (T : Type) where
  intoValue : T → Value
  debugFmt : T → String

/-- `any()` from the source: "Match any value.  It will never return an
error." -/
structure AnyValidator where

/-- The source's `any()` constructor. -/
def any : AnyValidator := ⟨⟩

/-- `AnyValidator::validate` from the source: `Ok(())` for every input. -/
def AnyValidator.validate (_self : AnyValidator) (_value : Value) :
    Except Error Unit := .ok ()

/-- `EqValidator<T>` from the source: holds one owned expected value of a
generic type `T` convertible into Value. -/
structure EqValidator (T : Type) where
  expected : T

/-- The source's `eq(expected)` constructor. -/
def eq {T : Type} (expected : T) : EqValidator T := ⟨expected⟩

/-- `EqValidator::validate` from the source: convert the stored expected
value afresh, compare type ids first (InvalidType on mismatch, carrying
the expected type id), then structural equality (Ok on equal,
InvalidValue with the debug rendering of the original `T` otherwise).
The trait-dictionary argument `c` stands for the `Into<Value> + Debug`
bounds on `T`. -/
def EqValidator.validate {T : Type} (c : IntoValueDebug T)
    (self : EqValidator T) (value : Value) : Except Error Unit :=
  let expected_val := c.intoValue self.expected
  if get_value_type_id expected_val ≠ get_value_type_id value then
    .error (.InvalidType value (get_value_type_id expected_val))
  else if Value.beq value expected_val then
    .ok ()
  else
    .error (.InvalidValue value (c.debugFmt self.expected))

/-- `Box<dyn Validator>` from the source: a boxed validator is observable
only through its `validate` behaviour. -/
structure BoxDynValidator where
  validate : Value → Except Error Unit

/-- Body of the source's `impl_from_validator_default!` conversions:
`fn from(u) -> Self { Box::new(eq(u)) }`. -/
def fromPrimitive {T : Type} (c : IntoValueDebug T) (u : T) : BoxDynValidator :=
  ⟨fun value => (eq u).validate c value⟩

/-- `String::from(str_input)`: copying a borrowed string slice into an
owned string, the identity in a pure embedding. -/
def stringFrom (s : String) : String := s

/-- Modelled from the spec: the Debug rendering of a Rust string, which
quotes it (the spec: the debug string "preserves the caller's literal
formatting (e.g., quoting conventions)"). -/
def debugString (s : String) : String := s.quote

/-- Modelled from the spec: the Debug rendering of a boolean. -/
def debugBool (b : Bool) : String := if b then "true" else "false"

/-- Modelled from the spec: the Debug rendering of a floating-point
value, an opaque human-readable function of its bit pattern (float
formatting is external to the excerpt). -/
def debugFloatBits (bits : Nat) : String := "float:" ++ toString bits

/-- Modelled from the spec: `Into<Value>` and `Debug` for owned strings —
an owned string converts to the string variant. -/
def stringConv : IntoValueDebug String := ⟨Value.str, debugString⟩

/-- Modelled from the spec: `Into<Value>` and `Debug` for a borrowed
string slice — it converts to the string variant and debug-renders
quoted, exactly as the owned string does. -/
def strSliceConv : IntoValueDebug String := ⟨Value.str, debugString⟩

/-- Modelled from the spec: `Into<Value>` and `Debug` for booleans. -/
def boolConv : IntoValueDebug Bool := ⟨Value.bool, debugBool⟩

/-- Modelled from the spec: `Into<Value>` and `Debug` for the unsigned
integer kinds — the value embeds into the number variant exactly and
debug-renders in decimal. -/
def natConv : IntoValueDebug Nat :=
  ⟨fun n => Value.number (.int (Int.ofNat n)), fun n => toString n⟩

/-- Modelled from the spec: `Into<Value>` and `Debug` for the signed
integer kinds. -/
def intConv : IntoValueDebug Int :=
  ⟨fun i => Value.number (.int i), fun i => toString i⟩

/-- Modelled from the spec: `Into<Value>` and `Debug` for the
floating-point kinds, represented by bit pattern. -/
def floatConv : IntoValueDebug Nat :=
  ⟨fun bits => Value.number (.float bits), debugFloatBits⟩

/-- The fourteen primitive kinds named in the source's
`impl_from_validator_default!` invocation: String, bool, u8, u16, u32,
u64, usize, i8, i16, i32, i64, isize, f32, f64. -/
inductive PrimKind where
  | string
  | bool
  | u8
  | u16
  | u32
  | u64
  | usize
  | i8
  | i16
  | i32
  | i64
  | isize
  | f32
  | f64
  deriving DecidableEq, Repr

/-- The Lean carrier for each primitive kind.  Unsigned integer kinds
carry naturals and signed kinds carry integers (no arithmetic is
performed, so widths are immaterial); float kinds carry bit patterns. -/
def PrimKind.carrier : PrimKind → Type
  | .string => String
  | .bool => Bool
  | .u8 => Nat
  | .u16 => Nat
  | .u32 => Nat
  | .u64 => Nat
  | .usize => Nat
  | .i8 => Int
  | .i16 => Int
  | .i32 => Int
  | .i64 => Int
  | .isize => Int
  | .f32 => Nat
  | .f64 => Nat

/-- The `Into<Value> + Debug` capabilities of each primitive kind. -/
def PrimKind.conv : (k : PrimKind) → IntoValueDebug k.carrier
  | .string => stringConv
  | .bool => boolConv
  | .u8 => natConv
  | .u16 => natConv
  | .u32 => natConv
  | .u64 => natConv
  | .usize => natConv
  | .i8 => intConv
  | .i16 => intConv
  | .i32 => intConv
  | .i64 => intConv
  | .isize => intConv
  | .f32 => floatConv
  | .f64 => floatConv

/-- The source's macro-generated `impl From<$ty> for Box<dyn Validator>`
at each of the fourteen kinds: `from(u) = Box::new(eq(u))`. -/
def fromPrim (k : PrimKind) (u : k.carrier) : BoxDynValidator :=
  fromPrimitive k.conv u

/-- The source's `impl From<&str> for Box<dyn Validator>`:
`Box::new(eq(String::from(str_input)))`. -/
def fromStrSlice (s : String) : BoxDynValidator :=
  fromPrimitive stringConv (stringFrom s)

mutual

/-- Structural equality on `Value` is reflexive. -/
theorem Value.beq_refl : (v : Value) → Value.beq v v = true
  | .null => rfl
  | .bool b => by simp [Value.beq]
  | .number n => by simp [Value.beq]
  | .str s => by simp [Value.beq]
  | .array xs => by
      simpa [Value.beq] using Value.beqList_refl xs
  | .object fs => by
      simpa [Value.beq] using Value.beqFields_refl fs

/-- Element-wise reflexivity for the array branch of `Value.beq`. -/
theorem Value.beqList_refl : (xs : List Value) → Value.beq.beqList xs xs = true
  | [] => rfl
  | x :: xs => by
      simp only [Value.beq.beqList, Bool.and_eq_true]
      exact ⟨Value.beq_refl x, Value.beqList_refl xs⟩

/-- Field-wise reflexivity for the object branch of `Value.beq`. -/
theorem Value.beqFields_refl : (fs : List (String × Value)) → Value.beq.beqFields fs fs = true
  | [] => rfl
  | (k, v) :: fs => by
      simp only [Value.beq.beqFields, Bool.and_eq_true, beq_self_eq_true, true_and]
      exact ⟨Value.beq_refl v, Value.beqFields_refl fs⟩

end

mutual

/-- Structural equality on `Value` implies propositional equality. -/
theorem Value.eq_of_beq : (v w : Value) → Value.beq v w = true → v = w
  | .null, w, h => by
      cases w <;> simp_all [Value.beq]
  | .bool b, w, h => by
      cases w <;> simp_all [Value.beq]
  | .number n, w, h => by
      cases w <;> simp_all [Value.beq]
  | .str s, w, h => by
      cases w <;> simp_all [Value.beq]
  | .array xs, w, h => by
      cases w
      case array ys =>
        simp only [Value.beq] at h
        exact congrArg Value.array (Value.eqList_of_beqList xs ys h)
      all_goals simp_all [Value.beq]
  | .object fs, w, h => by
      cases w
      case object gs =>
        simp only [Value.beq] at h
        exact congrArg Value.object (Value.eqFields_of_beqFields fs gs h)
      all_goals simp_all [Value.beq]

/-- Element-wise soundness for the array branch of `Value.beq`. -/
theorem Value.eqList_of_beqList : (xs ys : List Value) → Value.beq.beqList xs ys = true → xs = ys
  | [], [], _ => rfl
  | [], _ :: _, h => by simp [Value.beq.beqList] at h
  | _ :: _, [], h => by simp [Value.beq.beqList] at h
  | x :: xs, y :: ys, h => by
      simp only [Value.beq.beqList, Bool.and_eq_true] at h
      rw [Value.eq_of_beq x y h.1, Value.eqList_of_beqList xs ys h.2]

/-- Field-wise soundness for the object branch of `Value.beq`. -/
theorem Value.eqFields_of_beqFields :
    (fs gs : List (String × Value)) → Value.beq.beqFields fs gs = true → fs = gs
  | [], [], _ => rfl
  | [], _ :: _, h => by simp [Value.beq.beqFields] at h
  | _ :: _, [], h => by simp [Value.beq.beqFields] at h
  | (k₁, v₁) :: fs, (k₂, v₂) :: gs, h => by
      simp only [Value.beq.beqFields, Bool.and_eq_true, beq_iff_eq] at h
      rw [h.1.1, Value.eq_of_beq v₁ v₂ h.1.2, Value.eqFields_of_beqFields fs gs h.2]

end

/-- Structural equality on `Value` agrees with propositional equality. -/
theorem Value.beq_iff_eq (v w : Value) : Value.beq v w = true ↔ v = w :=
  ⟨Value.eq_of_beq v w, fun h => h ▸ Value.beq_refl v⟩

instance : DecidableEq Value := fun v w =>
  if h : Value.beq v w = true then .isTrue (Value.eq_of_beq v w h)
  else .isFalse (fun he => h ((Value.beq_iff_eq v w).mpr he))

/-- Modelled from the spec: conversion of the unit/"no value" type into
the Value model yields the null variant (the spec's "'no value'/
null-equivalent variant"). -/
def unitConv : IntoValueDebug Unit := ⟨fun _ => Value.null, fun _ => "()"⟩

/-- Unfolding lemma for `EqValidator.validate` at an `eq`-built
validator. -/
theorem EqValidator.validate_eq {T : Type} (c : IntoValueDebug T) (x : T) (value : Value) :
    (eq x).validate c value =
      if get_value_type_id (c.intoValue x) ≠ get_value_type_id value then
        .error (.InvalidType value (get_value_type_id (c.intoValue x)))
      else if Value.beq value (c.intoValue x) then .ok ()
      else .error (.InvalidValue value (c.debugFmt x)) := rfl

/-- Claim C1: whenever the type id of the converted expected value differs
from the type id of the inspected value, `eq(x).validate(&y)` returns
`InvalidType` carrying the inspected value and the expected (not actual)
type id — never `InvalidValue`. -/
theorem claim_C1 {T : Type} (c : IntoValueDebug T) (x : T) (y : Value)
    (h : get_value_type_id (c.intoValue x) ≠ get_value_type_id y) :
    (eq x).validate c y = .error (.InvalidType y (get_value_type_id (c.intoValue x))) := by
  rw [EqValidator.validate_eq, if_pos h]

/-- Witness for C1: the number 4 matched against the string "4" fails with
`InvalidType` carrying the number type id. -/
theorem claim_C1_witness :
    get_value_type_id (natConv.intoValue 4) ≠ get_value_type_id (Value.str "4") ∧
    (eq 4).validate natConv (Value.str "4") =
      .error (.InvalidType (Value.str "4") (get_value_type_id (natConv.intoValue 4))) :=
  ⟨by decide, claim_C1 natConv 4 (Value.str "4") (by decide)⟩

/-- Claim C2: when the type ids agree but the inspected value is not
structurally equal to the converted expected value, `eq(x).validate(&y)`
returns `InvalidValue` carrying the inspected value and the debug
rendering of the original stored expected `T`. -/
theorem claim_C2 {T : Type} (c : IntoValueDebug T) (x : T) (y : Value)
    (htype : get_value_type_id (c.intoValue x) = get_value_type_id y)
    (hval : y ≠ c.intoValue x) :
    (eq x).validate c y = .error (.InvalidValue y (c.debugFmt x)) := by
  have hb : Value.beq y (c.intoValue x) = false := by
    cases hbeq : Value.beq y (c.intoValue x) with
    | false => rfl
    | true => exact absurd (Value.eq_of_beq _ _ hbeq) hval
  rw [EqValidator.validate_eq]
  simp [htype, hb]

/-- Witness for C2: expecting the string "test" against the string
"other" fails with `InvalidValue` carrying the debug rendering of the
original owned string. -/
theorem claim_C2_witness :
    get_value_type_id (stringConv.intoValue "test") = get_value_type_id (Value.str "other") ∧
    Value.str "other" ≠ stringConv.intoValue "test" ∧
    (eq "test").validate stringConv (Value.str "other") =
      .error (.InvalidValue (Value.str "other") (stringConv.debugFmt "test")) :=
  ⟨rfl, by decide, claim_C2 stringConv "test" (Value.str "other") rfl (by decide)⟩

/-- Claim C3: `any().validate(&v)` returns `Ok(())` for every Value,
including Null, the empty array and the empty object. -/
theorem claim_C3 (v : Value) : any.validate v = .ok () := rfl

/-- Claim C4: reflexivity of `eq` — validating the converted expected
value against `eq(x)` succeeds. -/
theorem claim_C4 {T : Type} (c : IntoValueDebug T) (x : T) :
    (eq x).validate c (c.intoValue x) = .ok () := by
  rw [EqValidator.validate_eq]
  simp [Value.beq_refl]

/-- Claim C5: for every primitive kind of the source's conversion macro
and every value of that kind, the boxed validator produced by the `From`
conversion behaves identically to `eq` applied to the same value, on
every inspected Value. -/
theorem claim_C5 (k : PrimKind) (l : k.carrier) (v : Value) :
    (fromPrim k l).validate v = (eq l).validate k.conv v := rfl

/-- Claim C6: converting a borrowed string slice produces a validator
behaving identically to `eq` of the owned-string copy, on every inspected
Value. -/
theorem claim_C6 (s : String) (v : Value) :
    (fromStrSlice s).validate v = (eq (stringFrom s)).validate stringConv v := rfl

/-- Claim C7: when the stored expected value converts to the null variant
and the inspected value is Null, `eq`'s validate finds the type ids equal
and the values structurally equal, returning `Ok(())`. -/
theorem claim_C7 {T : Type} (c : IntoValueDebug T) (x : T)
    (h : c.intoValue x = Value.null) :
    (eq x).validate c Value.null = .ok () := by
  rw [EqValidator.validate_eq, h]
  simp [Value.beq]

/-- Witness for C7: the unit expected value against Null yields
`Ok(())`. -/
theorem claim_C7_witness :
    unitConv.intoValue () = Value.null ∧
    (eq ()).validate unitConv Value.null = .ok () :=
  ⟨rfl, claim_C7 unitConv () rfl⟩

/-- Claim C8: determinism — `validate` of both `any()` and `eq(x)` is a
pure function of the (validator state, value) pair: identical inputs give
identical results. -/
theorem claim_C8 {T : Type} (c : IntoValueDebug T) (x : T) (v w : Value)
    (h : v = w) :
    (eq x).validate c v = (eq x).validate c w ∧
    any.validate v = any.validate w := by
  subst h
  exact ⟨rfl, rfl⟩

/-- Witness for C8: two invocations on Null agree for both `eq 1` and
`any`. -/
theorem claim_C8_witness :
    Value.null = Value.null ∧
    ((eq 1).validate natConv Value.null = (eq 1).validate natConv Value.null ∧
      any.validate Value.null = any.validate Value.null) :=
  ⟨rfl, claim_C8 natConv 1 Value.null Value.null rfl⟩

/-- Claim C9: the macro-generated lifting covers the pointer-sized kinds
usize and isize: the `From` conversion at each behaves identically to
`eq` of the same value. -/
theorem claim_C9 (n : PrimKind.usize.carrier) (i : PrimKind.isize.carrier) (v : Value) :
    (fromPrim PrimKind.usize n).validate v = (eq n).validate PrimKind.usize.conv v ∧
    (fromPrim PrimKind.isize i).validate v = (eq i).validate PrimKind.isize.conv v :=
  ⟨rfl, rfl⟩

/-- Claim C10: `eq` applied directly to a borrowed string slice is
observationally equivalent to `eq` of the owned-string copy, including
the debug rendering inside any `InvalidValue` error. -/
theorem claim_C10 (s : String) (v : Value) :
    (eq s).validate strSliceConv v = (eq (stringFrom s)).validate stringConv v := rfl

end AssertJson
